import Mathlib

/-!
Verification of the leptonai CLI utility module (leptonai/cli/util.py).

The module contains an abbreviation-aware command dispatcher
(the nested function is_abbrev, and the methods get_command and
resolve_command of ClickAliasedGroup) together with print-and-exit
helpers (get_workspace_and_token_or_die, check, guard_api,
explain_response).  Strings are embedded as Lean String values, Python
exceptions as Option/none, console printing as an accumulated list of
printed lines, and sys.exit as a terminal outcome carrying the exit code.
-/

namespace LeptonCLI

/-- The greedy forward scan performed by the Python expression
all-of any-of c equals ch for c in it, for ch in x, where it is a single
iterator over y shared across the outer loop: each character of x is
searched for in y starting just after the position where the previous
character matched. -/
def scanSub : List Char → List Char → Bool
  | [], _ => true
  | _ :: _, [] => false
  | c :: cs, d :: ds => if c = d then scanSub cs ds else scanSub (c :: cs) ds

/-- Embeds is_abbrev(x, y) from util.py.  Python first evaluates x[0] and
y[0], which raises IndexError when x (or, x being non-empty, y) is the
empty string; the exception is modelled as none. -/
def is_abbrev (x y : List Char) : Option Bool :=
  match x, y with
  | [], _ => none
  | _ :: _, [] => none
  | cx :: cs, cy :: ds =>
    if cx ≠ cy then some false else some (scanSub (cx :: cs) (cy :: ds))

/-- Embeds the list comprehension that filters self.list_commands(ctx) by
is_abbrev(cmd_name, x); an exception raised by is_abbrev propagates, which
is modelled as none. -/
def computeMatches (token : String) : List String → Option (List String)
  | [] => some []
  | y :: ys =>
    match is_abbrev token.data y.data with
    | none => none
    | some b =>
      match computeMatches token ys with
      | none => none
      | some rest => some (if b then y :: rest else rest)

/-- Outcome of a command lookup.  found models returning a command (a
command being identified with its registered name), notFound models
returning None, failedExit models the process terminating with an exit
code after printing the given message, and pyError models an uncaught
Python exception. -/
inductive Resolution where
  | found (name : String)
  | notFound
  | failedExit (code : Nat) (message : String)
  | pyError
  deriving DecidableEq, Repr

/-- The single-quote character, used by the ambiguity message. -/
def sq : String := String.singleton (Char.ofNat 39)

/-- Embeds Python sorted on a list of command names (lexicographic
comparison of character sequences). -/
def sortNames (l : List String) : List String :=
  List.insertionSort (· ≤ ·) l

/-- The ambiguity message built by get_command: the token wrapped in
single quotes, the text " is ambiguous: ", and the sorted candidate names
joined by ", ". -/
def ambiguousMessage (token : String) (ms : List String) : String :=
  sq ++ token ++ sq ++ " is ambiguous: " ++ String.intercalate ", " (sortNames ms)

/-- Modelled from the spec: ctx.fail belongs to the click framework, an
external collaborator whose code is not under src/.  The spec states that
on ambiguity the dispatcher prints one line containing the token and the
sorted candidate list and the process terminates with exit code 1. -/
def ctx_fail (message : String) : Resolution :=
  .failedExit 1 message

/-- Embeds ClickAliasedGroup.get_command.  cmds is the list of registered
command names; the base-class lookup click.Group.get_command succeeds
exactly on an exact name match. -/
def get_command (cmds : List String) (cmd_name : String) : Resolution :=
  if cmd_name ∈ cmds then .found cmd_name
  else
    match computeMatches cmd_name cmds with
    | none => .pyError
    | some [] => .notFound
    | some [m] => .found m
    | some ms => ctx_fail (ambiguousMessage cmd_name ms)

/-- The base-class click.Group.resolve_command: resolves the first
argument via get_command and returns the user-typed token, the resolved
command, and the remaining arguments.  none models the paths on which the
base class does not return normally (no arguments, lookup failure). -/
def base_resolve_command (cmds : List String) (args : List String) :
    Option (String × String × List String) :=
  match args with
  | [] => none
  | token :: rest =>
    match get_command cmds token with
    | .found m => some (token, m, rest)
    | _ => none

/-- Embeds ClickAliasedGroup.resolve_command: it discards the token
returned by the base class and reports cmd.name, the registered name of
the resolved command, instead. -/
def resolve_command (cmds : List String) (args : List String) :
    Option (String × String × List String) :=
  match base_resolve_command cmds args with
  | none => none
  | some (_, m, rest) => some (m, m, rest)

/-- Outcome of one of the print-and-exit helper functions: either a
normal return carrying the returned value and the list of printed lines,
or process termination via sys.exit carrying the exit code and the list
of lines printed before exiting. -/
inductive Outcome (α : Type) where
  | ok (val : α) (printed : List String)
  | exited (code : Nat) (printed : List String)
  deriving DecidableEq, Repr

/-- Embeds check(condition, message) from util.py. -/
def check (condition : Bool) (message : String) : Outcome Unit :=
  if condition then .ok () [] else .exited 1 [message]

/-- The argument of guard_api: either an APIError (carrying its printed
representation) or ordinary content. -/
inductive ApiContent (α : Type) where
  | apiError (e : String)
  | content (v : α)
  deriving DecidableEq, Repr

/-- Embeds guard_api(content_or_error, detail, msg) from util.py. -/
def guard_api {α : Type} (content_or_error : ApiContent α) (detail : Bool)
    (msg : Option String) : Outcome (ApiContent α) :=
  match content_or_error with
  | .apiError e =>
    .exited 1 ((if detail then [e] else []) ++ msg.toList)
  | .content v => .ok (.content v) []

/-- Embeds explain_response(response, if_200, if_404, if_others,
exit_if_404) from util.py; the response is represented by its status
code. -/
def explain_response (status : Nat) (if_200 if_404 if_others : String)
    (exit_if_404 : Bool) : Outcome Unit :=
  if status = 200 then .ok () [if_200]
  else if status = 404 then
    (if exit_if_404 then .exited 1 [if_404] else .ok () [if_404])
  else .exited 1 [if_others]

/-- The message printed when no workspace URL is stored. -/
def noWorkspaceMsg : String :=
  "No workspace found. Please run `lep workspace login` first."

/-- The message printed when no auth token is stored. -/
def noAuthMsg : String :=
  "No auth token found. Please run `lep workspace login` first."

/-- Embeds get_workspace_and_token_or_die from util.py.  The credential
store (module leptonai.api.workspace, an external collaborator) is
represented by the stored workspace URL, if any, and by the map from a
URL to its stored auth token, if any. -/
def get_workspace_and_token_or_die (url : Option String)
    (tokenOf : String → Option String) : Outcome (String × String) :=
  match url with
  | none => .exited 1 [noWorkspaceMsg]
  | some u =>
    match tokenOf u with
    | none => .exited 1 [noAuthMsg]
    | some t => .ok (u, t) []

/-! ### Helper lemmas -/

theorem scanSub_eq_isSublist : ∀ (x y : List Char), scanSub x y = x.isSublist y
  | [], y => by simp [scanSub, List.isSublist]
  | _ :: _, [] => by simp [scanSub, List.isSublist]
  | c :: cs, d :: ds => by
    simp only [scanSub, List.isSublist]
    by_cases h : c = d
    · simp [h, scanSub_eq_isSublist cs ds]
    · simp [h, scanSub_eq_isSublist (c :: cs) ds]

theorem scanSub_iff {x y : List Char} : scanSub x y = true ↔ List.Sublist x y := by
  rw [scanSub_eq_isSublist]
  exact List.isSublist_iff_sublist

theorem is_abbrev_cons_iff {cx cy : Char} {cs ds : List Char} :
    is_abbrev (cx :: cs) (cy :: ds) = some true ↔
      cx = cy ∧ List.Sublist (cx :: cs) (cy :: ds) := by
  simp only [is_abbrev]
  by_cases h : cx = cy
  · simp [h, scanSub_iff]
  · simp [h]

theorem is_abbrev_isSome {x y : List Char} (hx : x ≠ []) (hy : y ≠ []) :
    ∃ b, is_abbrev x y = some b := by
  cases x with
  | nil => exact absurd rfl hx
  | cons cx cs =>
    cases y with
    | nil => exact absurd rfl hy
    | cons cy ds =>
      simp only [is_abbrev]
      split
      · exact ⟨false, rfl⟩
      · exact ⟨_, rfl⟩

theorem computeMatches_isSome {token : String} : ∀ {cmds : List String},
    token.data ≠ [] → (∀ n ∈ cmds, n.data ≠ []) →
    (computeMatches token cmds).isSome = true := by
  intro cmds
  induction cmds with
  | nil => intro _ _; rfl
  | cons c cs ih =>
    intro h1 h2
    obtain ⟨b, hb⟩ := is_abbrev_isSome h1 (h2 c (by simp))
    have hcs := ih h1 (fun n hn => h2 n (List.mem_cons_of_mem _ hn))
    simp only [computeMatches, hb]
    cases hcm : computeMatches token cs with
    | none => rw [hcm] at hcs; simp at hcs
    | some rest => simp

theorem computeMatches_eq_filter : ∀ {cmds : List String} {token : String}
    {ms : List String}, computeMatches token cmds = some ms →
    ms = cmds.filter (fun y => is_abbrev token.data y.data == some true) := by
  intro cmds
  induction cmds with
  | nil =>
    intro token ms h
    simp only [computeMatches, Option.some.injEq] at h
    subst h
    rfl
  | cons c cs ih =>
    intro token ms h
    simp only [computeMatches] at h
    cases hab : is_abbrev token.data c.data with
    | none => rw [hab] at h; simp at h
    | some b =>
      rw [hab] at h
      cases hcm : computeMatches token cs with
      | none => rw [hcm] at h; simp at h
      | some rest =>
        rw [hcm] at h
        simp only [Option.some.injEq] at h
        subst h
        rw [List.filter_cons]
        cases b with
        | true => simp [hab, ih hcm]
        | false => simp [hab, ih hcm]

theorem computeMatches_subset {cmds : List String} {token : String}
    {ms : List String} (h : computeMatches token cmds = some ms) :
    ∀ y ∈ ms, y ∈ cmds := by
  intro y hy
  rw [computeMatches_eq_filter h] at hy
  exact List.mem_of_mem_filter hy

theorem computeMatches_mem_iff {cmds : List String} {token : String}
    {ms : List String} (h : computeMatches token cmds = some ms) (y : String) :
    y ∈ ms ↔ y ∈ cmds ∧ is_abbrev token.data y.data = some true := by
  rw [computeMatches_eq_filter h, List.mem_filter]
  simp [beq_iff_eq]

theorem found_mem {cmds : List String} {token m : String}
    (h : get_command cmds token = .found m) : m ∈ cmds := by
  by_cases hin : token ∈ cmds
  · rw [get_command, if_pos hin] at h
    cases h
    exact hin
  · rw [get_command, if_neg hin] at h
    cases hcm : computeMatches token cmds with
    | none => rw [hcm] at h; simp at h
    | some ms =>
      rw [hcm] at h
      cases ms with
      | nil => simp at h
      | cons a t =>
        cases t with
        | nil =>
          have ham : a = m := by simpa using h
          exact computeMatches_subset hcm m (by simp [ham])
        | cons b t2 => simp [ctx_fail] at h

/-! ### Claim theorems -/

/-- C1: For every non-empty token and every list of registered names
(command names being non-empty strings), the match-set computation
succeeds, and a name y is in the match set if and only if y is registered,
the first character of the token equals the first character of y, and
every character of the token can be matched, in order, to characters of y
by a single forward scan, i.e. the token is an ordered subsequence of y. -/
theorem match_set_characterization (token : String) (cmds : List String)
    (h1 : token.data ≠ []) (h2 : ∀ n ∈ cmds, n.data ≠ []) :
    (computeMatches token cmds).isSome = true ∧
    ∀ ms, computeMatches token cmds = some ms →
      ∀ y, y ∈ ms ↔ y ∈ cmds ∧ token.data.head? = y.data.head? ∧
        List.Sublist token.data y.data := by
  refine ⟨computeMatches_isSome h1 h2, ?_⟩
  intro ms hms y
  rw [computeMatches_mem_iff hms y]
  cases htd : token.data with
  | nil => exact absurd htd h1
  | cons tc ts =>
    constructor
    · rintro ⟨hy, hab⟩
      refine ⟨hy, ?_⟩
      cases hyd : y.data with
      | nil => exact absurd hyd (h2 y hy)
      | cons yc ys =>
        rw [hyd] at hab
        obtain ⟨hc, hsub⟩ := is_abbrev_cons_iff.mp hab
        exact ⟨by simp [hc], hsub⟩
    · rintro ⟨hy, hhead, hsub⟩
      refine ⟨hy, ?_⟩
      cases hyd : y.data with
      | nil => exact absurd hyd (h2 y hy)
      | cons yc ys =>
        rw [hyd] at hhead hsub
        exact is_abbrev_cons_iff.mpr ⟨by simpa using hhead, hsub⟩

/-- C1 witness: instantiation at the token "lst" and the registered names
list, last, start. -/
theorem match_set_characterization_witness :
    (computeMatches "lst" ["list", "last", "start"]).isSome = true ∧
    ∀ ms, computeMatches "lst" ["list", "last", "start"] = some ms →
      ∀ y, y ∈ ms ↔ y ∈ ["list", "last", "start"] ∧
        "lst".data.head? = y.data.head? ∧ List.Sublist "lst".data y.data :=
  match_set_characterization "lst" ["list", "last", "start"]
    (by decide) (by decide)

/-- C2: For a token that is no exact registered name and whose match set
has at least two members, get_command terminates the process with exit
code 1 (the ctx.fail channel, modelled from the spec) after printing one
line that contains the token and the candidate names in sorted lexical
order: the printed message is built from the token and a sorted
permutation of the match set. -/
theorem ambiguous_resolution (cmds : List String) (token : String)
    (ms : List String) (hnot : token ∉ cmds)
    (hm : computeMatches token cmds = some ms) (hlen : 2 ≤ ms.length) :
    get_command cmds token = .failedExit 1 (ambiguousMessage token ms) ∧
    ambiguousMessage token ms =
      sq ++ token ++ sq ++ " is ambiguous: " ++
        String.intercalate ", " (sortNames ms) ∧
    List.Perm (sortNames ms) ms ∧
    List.Sorted (· ≤ ·) (sortNames ms) := by
  refine ⟨?_, rfl, List.perm_insertionSort _ _, List.sorted_insertionSort _ _⟩
  cases ms with
  | nil => simp at hlen
  | cons a t =>
    cases t with
    | nil => simp at hlen
    | cons b t2 =>
      rw [get_command, if_neg hnot, hm]
      rfl

/-- C2 witness: resolving "lst" against list, last, start is ambiguous
with sorted candidates last, list. -/
theorem ambiguous_resolution_witness :
    (get_command ["list", "last", "start"] "lst" =
      Resolution.failedExit 1 (ambiguousMessage "lst" ["list", "last"]) ∧
    ambiguousMessage "lst" ["list", "last"] =
      sq ++ "lst" ++ sq ++ " is ambiguous: " ++
        String.intercalate ", " (sortNames ["list", "last"]) ∧
    List.Perm (sortNames ["list", "last"]) ["list", "last"] ∧
    List.Sorted (· ≤ ·) (sortNames ["list", "last"])) ∧
    sortNames ["list", "last"] = ["last", "list"] :=
  ⟨ambiguous_resolution ["list", "last", "start"] "lst" ["list", "last"]
    (by decide) (by decide) (by decide),
   by simp [sortNames, List.insertionSort, List.orderedInsert]; decide⟩

/-- C3 counterexample: resolving the empty token against the registered
names list does not return NotFound (the underlying Python code raises
IndexError when indexing the first character of the token). -/
theorem empty_token_counterexample :
    get_command ["list"] "" ≠ Resolution.notFound := by decide

/-- C3 amended: resolving the empty token against any non-empty list of
registered names not containing the empty string raises an uncaught
IndexError (is_abbrev evaluates the first character of the token);
resolution neither succeeds nor returns NotFound. -/
theorem empty_token_raises (cmds : List String) (hne : cmds ≠ [])
    (hnotin : "" ∉ cmds) : get_command cmds "" = Resolution.pyError := by
  cases cmds with
  | nil => exact absurd rfl hne
  | cons y ys =>
    rw [get_command, if_neg hnotin]
    rfl

/-- C3 witness: instantiation at the registered names list. -/
theorem empty_token_raises_witness :
    get_command ["list"] "" = Resolution.pyError :=
  empty_token_raises ["list"] (by decide) (by decide)

/-- C4: whenever lookup of the first argument resolves to a command,
resolve_command reports the registered (canonical) command name to its
caller, never the user token: the reported name is a registered name, and
when the token is not itself a registered name the reported name differs
from the token. -/
theorem resolve_command_canonical (cmds : List String) (token m : String)
    (rest : List String) (h : get_command cmds token = .found m) :
    resolve_command cmds (token :: rest) = some (m, m, rest) ∧
    m ∈ cmds ∧ (token ∉ cmds → m ≠ token) := by
  have hmem := found_mem h
  refine ⟨?_, hmem, ?_⟩
  · simp [resolve_command, base_resolve_command, h]
  · intro hnot heq
    exact hnot (heq ▸ hmem)

/-- C4 witness: the user types the abbreviation "li" with a trailing
argument; the reported command name is the canonical name "list". -/
theorem resolve_command_canonical_witness :
    resolve_command ["list", "last"] ["li", "arg"] =
      some ("list", "list", ["arg"]) ∧
    "list" ∈ ["list", "last"] ∧
    ("li" ∉ ["list", "last"] → "list" ≠ "li") :=
  resolve_command_canonical ["list", "last"] "li" "list" ["arg"] (by decide)

/-- C5: a token that exactly equals a registered name resolves to that
name immediately, whatever the other registered names are; consequently
resolution is idempotent: resolving a name that a resolution returned
returns the same name. -/
theorem exact_match_priority (cmds : List String) (token m : String) :
    (token ∈ cmds → get_command cmds token = Resolution.found token) ∧
    (get_command cmds token = Resolution.found m →
      get_command cmds m = Resolution.found m) := by
  constructor
  · intro h
    rw [get_command, if_pos h]
  · intro h
    rw [get_command, if_pos (found_mem h)]

/-- C5 witness: the abbreviation "li" resolves to "list"; resolving the
already-resolved canonical name "list" returns "list" unchanged. -/
theorem exact_match_priority_witness :
    get_command ["list", "last"] "list" = Resolution.found "list" :=
  (exact_match_priority ["list", "last"] "li" "list").2 (by decide)

/-- C6: for a token that is no exact registered name and whose match set
has exactly one member, get_command returns that unique member. -/
theorem unique_match_resolves (cmds : List String) (token m : String)
    (hnot : token ∉ cmds) (hm : computeMatches token cmds = some [m]) :
    get_command cmds token = Resolution.found m := by
  rw [get_command, if_neg hnot, hm]

/-- C6 witness: resolving "li" against list, last returns "list". -/
theorem unique_match_resolves_witness :
    get_command ["list", "last"] "li" = Resolution.found "list" :=
  unique_match_resolves ["list", "last"] "li" "list" (by decide) (by decide)

/-- C7: for a non-empty token that is no exact registered name and whose
match set is empty, get_command returns NotFound (the absent value,
delegating unknown-command handling to the framework) rather than printing
or exiting. -/
theorem no_match_not_found (cmds : List String) (token : String)
    (_hne : token ≠ "") (hnot : token ∉ cmds)
    (hm : computeMatches token cmds = some []) :
    get_command cmds token = Resolution.notFound := by
  rw [get_command, if_neg hnot, hm]

/-- C7 witness: resolving "xyz" against list, last returns NotFound. -/
theorem no_match_not_found_witness :
    get_command ["list", "last"] "xyz" = Resolution.notFound :=
  no_match_not_found ["list", "last"] "xyz" (by decide) (by decide) (by decide)

/-- C8 counterexample: two failure conditions that break the claimed
uniform pattern.  explain_response on a 404 response with exit_if_404
false prints a message and returns control to the caller instead of
terminating, and guard_api on an APIError with detail false and msg None
terminates with exit code 1 without printing any message. -/
theorem failure_uniformity_counterexample :
    explain_response 404 "okmsg" "missing" "errmsg" false =
      Outcome.ok () ["missing"] ∧
    guard_api (ApiContent.apiError "boom" : ApiContent Nat) false none =
      Outcome.exited 1 [] :=
  ⟨rfl, rfl⟩

/-- C8 amended: every failure path that terminates does so with exit code
1; check and get_workspace_and_token_or_die print exactly their message
before exiting; guard_api on an APIError exits with code 1 but prints
only what the detail and msg parameters direct, possibly nothing; and
explain_response exits with code 1 on every status other than 200 and
404, and on 404 exactly when exit_if_404 is true, while on 404 with
exit_if_404 false it prints the 404 message and returns control to the
caller. -/
theorem failure_paths_exit_one (message e if_200 if_404 if_others u : String)
    (detail exit_if_404 : Bool) (m : Option String) (status : Nat)
    (f : String → Option String) :
    check false message = Outcome.exited 1 [message] ∧
    guard_api (ApiContent.apiError e : ApiContent Unit) detail m =
      Outcome.exited 1 ((if detail then [e] else []) ++ m.toList) ∧
    get_workspace_and_token_or_die none f = Outcome.exited 1 [noWorkspaceMsg] ∧
    (f u = none → get_workspace_and_token_or_die (some u) f =
      Outcome.exited 1 [noAuthMsg]) ∧
    (status ≠ 200 → status ≠ 404 →
      explain_response status if_200 if_404 if_others exit_if_404 =
        Outcome.exited 1 [if_others]) ∧
    explain_response 404 if_200 if_404 if_others true =
      Outcome.exited 1 [if_404] ∧
    explain_response 404 if_200 if_404 if_others false =
      Outcome.ok () [if_404] := by
  refine ⟨rfl, rfl, rfl, ?_, ?_, rfl, rfl⟩
  · intro hf
    simp [get_workspace_and_token_or_die, hf]
  · intro h2 h4
    simp [explain_response, h2, h4]

/-- C8 witness: a missing auth token exits with code 1 after printing its
message, and a status 500 response exits with code 1 after printing the
catch-all message. -/
theorem failure_paths_exit_one_witness :
    get_workspace_and_token_or_die (some "url") (fun _ => none) =
      Outcome.exited 1 [noAuthMsg] ∧
    explain_response 500 "okmsg" "missing" "errmsg" false =
      Outcome.exited 1 ["errmsg"] :=
  ⟨(failure_paths_exit_one "m" "e" "okmsg" "missing" "errmsg" "url"
      false false none 500 (fun _ => none)).2.2.2.1 rfl,
   (failure_paths_exit_one "m" "e" "okmsg" "missing" "errmsg" "url"
      false false none 500 (fun _ => none)).2.2.2.2.1 (by decide) (by decide)⟩

/-- C9: get_workspace_and_token_or_die returns the pair of workspace URL
and auth token when both are stored; when the workspace URL is absent, or
the URL is stored but its auth token is absent, it prints one message and
the process exits with code 1. -/
theorem workspace_token_or_die (url t : String)
    (f : String → Option String) :
    (f url = some t →
      get_workspace_and_token_or_die (some url) f = Outcome.ok (url, t) []) ∧
    (get_workspace_and_token_or_die none f =
      Outcome.exited 1 [noWorkspaceMsg]) ∧
    (f url = none →
      get_workspace_and_token_or_die (some url) f =
        Outcome.exited 1 [noAuthMsg]) := by
  refine ⟨?_, rfl, ?_⟩
  · intro hf
    simp [get_workspace_and_token_or_die, hf]
  · intro hf
    simp [get_workspace_and_token_or_die, hf]

/-- C9 witness: concrete credential stores exercising all three cases. -/
theorem workspace_token_or_die_witness :
    get_workspace_and_token_or_die (some "url") (fun _ => some "tok") =
      Outcome.ok ("url", "tok") [] ∧
    get_workspace_and_token_or_die none (fun _ => none) =
      Outcome.exited 1 [noWorkspaceMsg] ∧
    get_workspace_and_token_or_die (some "url") (fun _ => none) =
      Outcome.exited 1 [noAuthMsg] :=
  ⟨(workspace_token_or_die "url" "tok" (fun _ => some "tok")).1 rfl,
   (workspace_token_or_die "url" "tok" (fun _ => none)).2.1,
   (workspace_token_or_die "url" "tok" (fun _ => none)).2.2 rfl⟩

/-- C10: for every input value that is not an APIError and all values of
the detail and msg parameters, guard_api returns its input unchanged,
prints nothing and does not exit. -/
theorem guard_api_identity {α : Type} (v : α) (detail : Bool)
    (msg : Option String) :
    guard_api (ApiContent.content v) detail msg =
      Outcome.ok (ApiContent.content v) [] := rfl

end LeptonCLI
